import Mathlib

/-!
Shallow embedding of the AgML annotation-format conversion pipeline
(`agml/data/utils.py` and `agml/synthetic/converter.py`).

Modelling conventions:
* Python `int` / parsed coordinates are `Int` / `ℚ`; `int(x)` on a float
  (truncation toward zero) is `pyInt`.
* External library calls are inputs to the model: `cv2.imread` becomes an
  environment `Env : String → Option (Nat × Nat)` mapping a path to the decoded
  image's (height, width), `skimage.measure.find_contours` output becomes the
  list of contours handed to the mask extractors, and `shapely`'s
  `Polygon.simplify` is an uninterpreted function parameter.
* Python exceptions are `Except String`; a `try/except` in the source becomes a
  `match` on the `Except` value.
* Python dicts keyed by strings are association lists (`List (String × α)`);
  the claims only involve registries built from distinct labels, for which the
  association-list semantics coincides with Python's insertion-ordered dict.
-/

namespace AgML

/-- Python `int(q)` on a real value: truncation toward zero. -/
def pyInt (q : ℚ) : Int := q.num.tdiv (q.den : Int)

/-- Model of `int(''.join(filter(str.isdigit, s)))`: concatenate the digit characters of
`s` and parse; raises `ValueError` when `s` contains no digit. -/
def extractDigitsNum (s : String) : Except String Int :=
  let ds := s.toList.filter Char.isDigit
  if ds.isEmpty then .error "ValueError: no digits in filename"
  else .ok ((ds.foldl (fun n c => 10 * n + ((c.toNat : Int) - 48)) 0 : Int))

/-- Python negative indexing `l[-k]`: `some` when `k ≤ len l`, otherwise the
access raises `IndexError` (modelled as `none`). -/
def negIdx (l : List String) (k : Nat) : Option String :=
  if k ≤ l.length then l.get? (l.length - k) else none

/-- Model of `get_label2id`: ids are assigned 1-based in input order
(`dict(zip(labels_str, range(1, len+1)))`). -/
def get_label2id (labels_str : List String) : List (String × Int) :=
  labels_str.enum.map (fun p => (p.2, (p.1 : Int) + 1))

abbrev LabelMap := List (String × Int)

/-- Environment standing for `cv2.imread`: maps a path to the decoded image's
(height, width), or `none` when loading/decoding fails. -/
abbrev Env := String → Option (Nat × Nat)

/-- COCO image record emitted by the image-info resolvers. -/
structure ImageInfo where
  file_name : String
  height : Int
  width : Int
  id : Int
  deriving Repr, DecidableEq

/-- COCO annotation record as produced by the box extractors
(before `image_id` / `id` are attached by the assembler). -/
structure CocoAnn where
  area : Int
  iscrowd : Int
  bbox : List Int
  category_id : Int
  ignore : Int
  segmentation : List (List ℚ)
  deriving Repr, DecidableEq

/-- A `CocoAnn` after the assembler's `ann.update({'image_id': …, 'id': …})`. -/
structure CocoAnnFull where
  area : Int
  iscrowd : Int
  bbox : List Int
  category_id : Int
  ignore : Int
  segmentation : List (List ℚ)
  image_id : Int
  id : Int
  deriving Repr, DecidableEq

/-- Model of `ann.update({'image_id': i, 'id': b})`. -/
def annWithIds (a : CocoAnn) (image_id : Int) (idv : Int) : CocoAnnFull :=
  { area := a.area, iscrowd := a.iscrowd, bbox := a.bbox,
    category_id := a.category_id, ignore := a.ignore,
    segmentation := a.segmentation, image_id := image_id, id := idv }

/-- COCO category record. -/
structure Category where
  supercategory : String
  id : Int
  name : String
  deriving Repr, DecidableEq

/-- The categories loop `for label, label_id in label2id.items()`. -/
def categoriesOf (label2id : LabelMap) : List Category :=
  label2id.map (fun p => { supercategory := "none", id := p.2, name := p.1 })

/-! ### Line-record box extractor (`get_coco_annotation_from_annoline`) -/

/-- One box record of an annotation line: the token slice
`[x1, y1, x2, y2, label]`.  The coordinates are the parsed float tokens;
`label` is `none` when the record has only four tokens (then `obj[4]`
raises `IndexError`). -/
structure AnnoBox where
  x1 : ℚ
  y1 : ℚ
  x2 : ℚ
  y2 : ℚ
  label : Option Int
  deriving Repr, DecidableEq

/-- Model of `get_coco_annotation_from_annoline(obj, label2id, resize)`.
`category_id = int(obj[4])` is read first (possible `IndexError`), then the
corner coordinates are scaled and truncated, the
`assert xmax > xmin and ymax > ymin` is checked, and the record uses the
inclusive convention `o_width = xmax - xmin + 1`.  `label2id` is an unused
parameter in the source as well. -/
def get_coco_annotation_from_annoline (obj : AnnoBox) (label2id : LabelMap)
    (resize : ℚ) : Except String CocoAnn :=
  match obj.label with
  | none => .error "IndexError: box record has no label token"
  | some category_id =>
    let _ := label2id
    let xmin := pyInt (obj.x1 * resize)
    let ymin := pyInt (obj.y1 * resize)
    let xmax := pyInt (obj.x2 * resize)
    let ymax := pyInt (obj.y2 * resize)
    if xmax > xmin ∧ ymax > ymin then
      let o_width := xmax - xmin + 1
      let o_height := ymax - ymin + 1
      .ok { area := o_width * o_height, iscrowd := 0,
            bbox := [xmin, ymin, o_width, o_height],
            category_id := category_id, ignore := 0, segmentation := [] }
    else .error "Box size error"

/-! ### XML object extractor (`get_coco_annotation_from_obj`) -/

/-- A `bndbox`/`bbox` XML element with its four coordinate texts parsed. -/
structure BndBox where
  xmin : ℚ
  ymin : ℚ
  xmax : ℚ
  ymax : ℚ
  deriving Repr, DecidableEq

/-- An `<object>` XML node: `findtext` results for `subname`/`name` and the
optional `bndbox`/`bbox` children. -/
structure XmlObject where
  subname : Option String
  name : Option String
  bndbox : Option BndBox
  bbox : Option BndBox
  deriving Repr, DecidableEq

/-- Result of the XML extractor: the source returns `[]` (unknown label),
`None` (no box element), or an annotation dict. -/
inductive XmlExtract where
  | listEmpty : XmlExtract
  | noneRes : XmlExtract
  | found : CocoAnn → XmlExtract
  deriving Repr, DecidableEq

/-- Shared tail of `get_coco_annotation_from_obj` once the `category_id` is
resolved: pick `bndbox`, falling back to `bbox`; return `None` when neither
exists; 1-inset the min corner; `assert xmax > xmin and ymax > ymin` on the
adjusted corner; widths are `xmax - xmin` of the adjusted values. -/
def xmlBoxAnn (obj : XmlObject) (category_id : Int) : Except String XmlExtract :=
  match (match obj.bndbox with | some b => some b | none => obj.bbox) with
  | none => .ok .noneRes
  | some b =>
    let xmin := pyInt b.xmin - 1
    let ymin := pyInt b.ymin - 1
    let xmax := pyInt b.xmax
    let ymax := pyInt b.ymax
    if xmax > xmin ∧ ymax > ymin then
      let o_width := xmax - xmin
      let o_height := ymax - ymin
      .ok (.found { area := o_width * o_height, iscrowd := 0,
                    bbox := [xmin, ymin, o_width, o_height],
                    category_id := category_id, ignore := 0,
                    segmentation := [] })
    else .error "Box size error"

/-- Model of `get_coco_annotation_from_obj(obj, label2id, name_converter)`.
A present `subname` is looked up directly in `label2id`
(`label2id[label]`, a `KeyError` when absent: the membership guard in the
source only runs on the `name` fallback path).  On the fallback path the
optional name remapping is applied, an absent label returns `[]`.
An empty `name_converter` list models both `None` and `{}` (both falsy). -/
def get_coco_annotation_from_obj (obj : XmlObject) (label2id : LabelMap)
    (name_converter : List (String × String)) : Except String XmlExtract :=
  match obj.subname with
  | some label =>
    match label2id.lookup label with
    | none => .error "KeyError: subname not in label2id"
    | some category_id => xmlBoxAnn obj category_id
  | none =>
    match obj.name with
    | none => .ok .listEmpty
    | some label0 =>
      let label := match name_converter.lookup label0 with
        | some remapped => remapped
        | none => label0
      match label2id.lookup label with
      | none => .ok .listEmpty
      | some category_id => xmlBoxAnn obj category_id

/-! ### Image-info resolvers -/

/-- An annotation line of the line-record format: the image path (as its
`'/'`-split components, always nonempty) and the per-box token slices.
`bbox_cnt` (`anno_line[1]`) equals `boxes.length` after the reshape. -/
structure AnnoLine where
  path : List String
  boxes : List AnnoBox
  deriving Repr, DecidableEq

/-- The full path string handed to `cv2.imread`. -/
def joinPath (path : List String) : String := String.intercalate "/" path

/-- Model of `get_image_info_from_annoline(annotation_root, idx, resize, add_foldername)`.
Returns `some (image_info, (height, width))` on success and `none` when any
step inside the `try` raises (unreadable image, degenerate resize target,
missing parent folder component for the composite filename): the source
catches every exception, logs, and returns `(None, None)`. -/
def get_image_info_from_annoline (env : Env) (annotation_root : AnnoLine)
    (idx : Int) (resize : ℚ) (add_foldername : Bool) :
    Option (ImageInfo × (Int × Int)) :=
  let filename := annotation_root.path.getLastD ""
  match env (joinPath annotation_root.path) with
  | none => none
  | some (h0, w0) =>
    let dims : Int × Int :=
      if resize ≠ 1 then (pyInt ((h0 : ℚ) * resize), pyInt ((w0 : ℚ) * resize))
      else ((h0 : Int), (w0 : Int))
    -- cv2.resize raises on a non-positive target size; caught by the except.
    if resize ≠ 1 ∧ (dims.1 ≤ 0 ∨ dims.2 ≤ 0) then none
    else
      if add_foldername then
        match negIdx annotation_root.path 2 with
        | none => none   -- IndexError inside the try
        | some folder =>
          some ({ file_name := folder ++ "_" ++ filename,
                  height := dims.1, width := dims.2, id := idx }, dims)
      else
        some ({ file_name := filename, height := dims.1, width := dims.2,
                id := idx }, dims)

/-- A parsed XML annotation root: the `findtext('filename')` result (`none`
when the `filename` element is absent) and the `<object>` children.  The
`findtext('path')` branch of the source is dead (`if path is None or True`). -/
structure XmlRoot where
  filenameText : Option String
  objects : List XmlObject
  deriving Repr, DecidableEq

/-- Model of `get_image_info(annotation_root, idx, resize, add_foldername)`.
`cv2.imread(None)` raises when the filename element is absent; all failures
inside the `try` yield `(None, None)`. -/
def get_image_info (env : Env) (annotation_root : XmlRoot) (idx : Int)
    (resize : ℚ) (add_foldername : Bool) : Option (ImageInfo × (Int × Int)) :=
  match annotation_root.filenameText with
  | none => none
  | some filename =>
    match env filename with
    | none => none
    | some (h0, w0) =>
      let dims : Int × Int :=
        if resize ≠ 1 then (pyInt ((h0 : ℚ) * resize), pyInt ((w0 : ℚ) * resize))
        else ((h0 : Int), (w0 : Int))
      if resize ≠ 1 ∧ (dims.1 ≤ 0 ∨ dims.2 ≤ 0) then none
      else
        let parts := filename.splitOn "/"
        if add_foldername then
          match negIdx parts 2 with
          | none => none
          | some folder =>
            some ({ file_name := folder ++ "_" ++ parts.getLastD "",
                    height := dims.1, width := dims.2, id := idx }, dims)
        else
          some ({ file_name := parts.getLastD "", height := dims.1,
                  width := dims.2, id := idx }, dims)

/-! ### Line-record assembler (`convert_bbox_to_coco`) -/

/-- The folder-derived category of `convert_bbox_to_coco`'s
`get_label_from_folder` branch: try `path[-3]`, then `path[-2]`; when neither
exists or is a known label, the bare `raise` propagates out of the job. -/
def folderCategory (path : List String) (label2id : LabelMap) :
    Except String Int :=
  match negIdx path 3 with
  | some category_name =>
    match label2id.lookup category_name with
    | some c => .ok c
    | none =>
      match negIdx path 2 with
      | some category_name2 =>
        match label2id.lookup category_name2 with
        | some c => .ok c
        | none => .error "folder label not in label2id"
      | none => .error "folder label not in label2id"
  | none =>
    match negIdx path 2 with
    | some category_name2 =>
      match label2id.lookup category_name2 with
      | some c => .ok c
      | none => .error "folder label not in label2id"
    | none => .error "folder label not in label2id"

/-- The inner box loop of `convert_bbox_to_coco` for one image, with the
enumerate index `bnd_idx` threaded.  The extractor call sits in a
`try/except` that turns any of its errors into `ann = None` (the box is
dropped).  Without `bnd_id_list` the emitted id is the bare enumerate index
`bnd_idx` — the source's `bnd_idx + 1` statement has no effect. -/
def processBoxes (label2id : LabelMap) (bnd_id_list : Option (List (List Int)))
    (get_label_from_folder : Bool) (resize : ℚ) (path : List String)
    (img_idx : Nat) (img_info : ImageInfo) :
    List AnnoBox → Nat → Except String (List CocoAnnFull)
  | [], _ => .ok []
  | obj :: rest, bnd_idx =>
    let objE : Except String AnnoBox :=
      if get_label_from_folder then
        match folderCategory path label2id with
        | .error e => .error e
        | .ok c => .ok { obj with label := some c }
      else .ok obj
    match objE with
    | .error e => .error e
    | .ok obj' =>
      let hereE : Except String (List CocoAnnFull) :=
        match get_coco_annotation_from_annoline obj' label2id resize with
        | .error _ => .ok []       -- except: ann = None
        | .ok ann =>
          match bnd_id_list with
          | some l =>
            match l.get? img_idx with
            | none => .error "IndexError: bnd_id_list"
            | some li =>
              match li.get? bnd_idx with
              | none => .error "IndexError: bnd_id_list"
              | some v => .ok [annWithIds ann img_info.id v]
          | none => .ok [annWithIds ann img_info.id (bnd_idx : Int)]
      match hereE with
      | .error e => .error e
      | .ok here =>
        match processBoxes label2id bnd_id_list get_label_from_folder
          resize path img_idx img_info rest (bnd_idx + 1) with
        | .error e => .error e
        | .ok restAnns => .ok (here ++ restAnns)

/-- The per-image loop of `convert_bbox_to_coco`, threading the enumerate
index `img_idx`; an unresolvable image contributes nothing
(`else: pass`), and the image copy step has no effect on the JSON output. -/
def convertBboxGo (env : Env) (label2id : LabelMap)
    (image_id_list : Option (List Int)) (bnd_id_list : Option (List (List Int)))
    (get_label_from_folder : Bool) (resize : ℚ) (add_foldername : Bool)
    (extract_num_from_imgid : Bool) :
    List AnnoLine → Nat → Except String (List ImageInfo × List CocoAnnFull)
  | [], _ => .ok ([], [])
  | anno_line :: rest, img_idx =>
    let uidE : Except String Int :=
      match image_id_list with
      | some ids =>
        match ids.get? img_idx with
        | some v => .ok v
        | none => .error "IndexError: image_id_list"
      | none =>
        if extract_num_from_imgid then
          extractDigitsNum (anno_line.path.getLastD "")
        else .ok ((img_idx : Int) + 1)
    match uidE with
    | .error e => .error e
    | .ok img_unique_id =>
      let hereE : Except String (Option ImageInfo × List CocoAnnFull) :=
        match get_image_info_from_annoline env anno_line img_unique_id resize
            add_foldername with
        | some (img_info, _) =>
          match processBoxes label2id bnd_id_list get_label_from_folder
            resize anno_line.path img_idx img_info anno_line.boxes 0 with
          | .error e => .error e
          | .ok anns => .ok (some img_info, anns)
        | none => .ok ((none : Option ImageInfo), ([] : List CocoAnnFull))
      match hereE with
      | .error e => .error e
      | .ok here =>
        match convertBboxGo env label2id image_id_list bnd_id_list
          get_label_from_folder resize add_foldername extract_num_from_imgid
          rest (img_idx + 1) with
        | .error e => .error e
        | .ok (restImgs, restAnns) =>
          .ok (match here.1 with
            | some i => (i :: restImgs, here.2 ++ restAnns)
            | none => (restImgs, here.2 ++ restAnns))

/-- The output JSON dict of the line-record and XML assemblers (the constant
`"type": "instances"` entry is omitted; `info` carries `general_info`). -/
structure BboxOutput where
  images : List ImageInfo
  annotations : List CocoAnnFull
  categories : List Category
  info : String
  deriving Repr, DecidableEq

/-- Model of `convert_bbox_to_coco(...)`: the returned/serialized output dict. -/
def convert_bbox_to_coco (env : Env) ( annotation : List AnnoLine)
    (label2id : LabelMap) (general_info : String)
    (image_id_list : Option (List Int)) (bnd_id_list : Option (List (List Int)))
    (get_label_from_folder : Bool) (resize : ℚ) (add_foldername : Bool)
    (extract_num_from_imgid : Bool) : Except String BboxOutput :=
  match convertBboxGo env label2id image_id_list bnd_id_list
    get_label_from_folder resize add_foldername extract_num_from_imgid
    annotation 0 with
  | .error e => .error e
  | .ok (imgs, anns) =>
    .ok { images := imgs, annotations := anns,
          categories := categoriesOf label2id, info := general_info }

/-! ### XML assembler (`convert_xmls_to_cocojson`) -/

/-- The object loop of `convert_xmls_to_cocojson` for one annotation root,
threading the job-wide `bnd_id` counter.  Extractor exceptions propagate
(no try/except here); a truthy result is given `image_id = img_info['id']`,
which raises `TypeError` when the image failed to resolve. -/
def processXmlObjects (label2id : LabelMap)
    (name_converter : List (String × String)) (img_info : Option ImageInfo)
    (bnd_id : Int) :
    List XmlObject → Except String (List CocoAnnFull × Int)
  | [] => .ok ([], bnd_id)
  | obj :: rest =>
    match get_coco_annotation_from_obj obj label2id name_converter with
    | .error e => .error e
    | .ok (.found ann) =>
      match img_info with
      | none => .error "TypeError: NoneType image info"
      | some info =>
        match processXmlObjects label2id name_converter img_info
          (bnd_id + 1) rest with
        | .error e => .error e
        | .ok (restAnns, bnd') =>
          .ok (annWithIds ann info.id bnd_id :: restAnns, bnd')
    | .ok _ => processXmlObjects label2id name_converter img_info bnd_id rest

/-- The per-file loop of `convert_xmls_to_cocojson`.  `sameLen` records
whether `len(img_paths) == len(annotation_paths)`, in which case the
`filename` element's text is overwritten with `img_paths[img_idx]`
(an `AttributeError` when the element is absent).  `img_info` is appended to
`images` unconditionally; after the object loop, `img_info['file_name']`
raises `TypeError` when the image failed to resolve. -/
def convertXmlGo (env : Env) (label2id : LabelMap)
    (name_converter : List (String × String)) (img_paths : List String)
    (sameLen : Bool) (extract_num_from_imgid : Bool) :
    List (String × XmlRoot) → Nat → Int →
    Except String (List (Option ImageInfo) × List CocoAnnFull)
  | [], _, _ => .ok ([], [])
  | (a_path, ann_root) :: rest, img_idx, bnd_id =>
    let uidE : Except String Int :=
      if extract_num_from_imgid then
        extractDigitsNum (((a_path.splitOn "/").getLastD ""))
      else .ok ((img_idx : Int) + 1)
    match uidE with
    | .error e => .error e
    | .ok img_unique_id =>
      let rootE : Except String XmlRoot :=
        if sameLen then
          match ann_root.filenameText with
          | none => .error "AttributeError: no filename element"
          | some _ =>
            match img_paths.get? img_idx with
            | some p => .ok { ann_root with filenameText := some p }
            | none => .error "IndexError: img_paths"
        else .ok ann_root
      match rootE with
      | .error e => .error e
      | .ok ann_root' =>
        let img_info := (get_image_info env ann_root' img_unique_id 1
          false).map Prod.fst
        match processXmlObjects label2id name_converter img_info bnd_id
          ann_root'.objects with
        | .error e => .error e
        | .ok (anns, bnd') =>
          -- img_name = img_info['file_name'] — raises when img_info is None.
          match img_info with
          | none => .error "TypeError: NoneType image info"
          | some _ =>
            match convertXmlGo env label2id name_converter img_paths sameLen
              extract_num_from_imgid rest (img_idx + 1) bnd' with
            | .error e => .error e
            | .ok (restImgs, restAnns) =>
              .ok (img_info :: restImgs, anns ++ restAnns)

/-- The XML assembler's output dict: `images` keeps the possibly-`None`
entries exactly as appended by the source. -/
structure XmlOutput where
  images : List (Option ImageInfo)
  annotations : List CocoAnnFull
  categories : List Category
  info : String
  deriving Repr, DecidableEq

/-- Model of `convert_xmls_to_cocojson(...)`: the serialized output dict.
`bnd_id` starts at 1 and is never reset. -/
def convert_xmls_to_cocojson (env : Env) (general_info : String)
    (items : List (String × XmlRoot)) (img_paths : List String)
    (label2id : LabelMap) (name_converter : List (String × String))
    (extract_num_from_imgid : Bool) : Except String XmlOutput :=
  let sameLen := img_paths.length == items.length
  match convertXmlGo env label2id name_converter img_paths sameLen
    extract_num_from_imgid items 0 1 with
  | .error e => .error e
  | .ok (imgs, anns) =>
    .ok { images := imgs, annotations := anns,
          categories := categoriesOf label2id, info := general_info }

/-! ### Synthetic-source reorganizer (`agml/synthetic/converter.py`) -/

/-- Model of `DataFormatConverterMetadata` (the fields the conversion uses);
`image_size` is `(height, width)` as read from `meta.json`. -/
structure SynMeta where
  path : String
  name : String
  image_size : Nat × Nat
  labels : List String
  generation_date : String
  deriving Repr, DecidableEq

/-- A pixel-space box as produced by `astype(np.int32)`. -/
structure SynBox where
  x : Int
  y : Int
  w : Int
  h : Int
  deriving Repr, DecidableEq

/-- One row `[x_c, y_c, w, h]` of a `rectangular_labels_*.txt` file (the
leading label token is already stripped by `annotations[:, 1:]`). -/
abbrev NormBox := ℚ × ℚ × ℚ × ℚ

/-- The coordinate conversion of `_convert_text_files_to_object_annotations`:
`x_min = (x_c - w/2) * width`, `y_min = ((1 - y_c) - h/2) * height`,
`w *= width`, `h *= height`, each truncated by `astype(np.int32)`. -/
def synPixelBox (image_size : Nat × Nat) (r : NormBox) : SynBox :=
  let height := (image_size.1 : ℚ)
  let width := (image_size.2 : ℚ)
  { x := pyInt ((r.1 - r.2.2.1 / 2) * width),
    y := pyInt (((1 - r.2.1) - r.2.2.2 / 2) * height),
    w := pyInt (r.2.2.1 * width),
    h := pyInt (r.2.2.2 * height) }

/-- A source image of the synthetic layout: the subject directory name
(`image_num`), the view directory name (`view_num`), and its per-label
annotation text files (`label name ↦ parsed rows`, `none` = file absent). -/
structure SynImage where
  image_num : String
  view_num : String
  files : String → Option (List NormBox)

/-- Model of `_convert_text_files_to_object_annotations(image_dir)` for one image:
per label (in registry order) read `rectangular_labels_<label>.txt`, with the
single `fruits → clusters` alias fallback, raising `FileNotFoundError`
otherwise; the bounding-box dict maps `indx + 1` (1-based label id) to the
converted boxes. -/
def convert_text_files_to_object_annotations (meta : SynMeta)
    (files : String → Option (List NormBox)) :
    Except String (List (Int × List SynBox)) :=
  go meta.labels.enum
where
  go : List (Nat × String) → Except String (List (Int × List SynBox))
    | [] => .ok []
    | (indx, label) :: rest =>
      let rowsE : Except String (List NormBox) :=
        match files label with
        | some rows => .ok rows
        | none =>
          if label = "fruits" then
            match files "clusters" with
            | some rows => .ok rows
            | none => .error "FileNotFoundError"
          else .error "FileNotFoundError"
      match rowsE with
      | .error e => .error e
      | .ok rows =>
        match go rest with
        | .error e => .error e
        | .ok restBoxes =>
          .ok (((indx : Int) + 1, rows.map (synPixelBox meta.image_size))
            :: restBoxes)

/-- The inner box loop of the annotation generation: each box gets
`id = image_box_tracker`, then the tracker is incremented. -/
def synBoxLoop (image_id : Int) (label : Int) :
    List SynBox → Int → List CocoAnnFull
  | [], _ => []
  | box :: rest, image_box_tracker =>
    { bbox := [box.x, box.y, box.w, box.h], area := box.w * box.h,
      category_id := label, image_id := image_id, id := image_box_tracker,
      iscrowd := 0, ignore := 0, segmentation := [] }
      :: synBoxLoop image_id label rest (image_box_tracker + 1)

/-- The `for label, bboxes in annotation.items()` loop for one image,
threading `image_box_tracker`. -/
def synAnnsGroup (image_id : Int) :
    List (Int × List SynBox) → Int → List CocoAnnFull
  | [], _ => []
  | (label, bboxes) :: rest, image_box_tracker =>
    synBoxLoop image_id label bboxes image_box_tracker
      ++ synAnnsGroup image_id rest (image_box_tracker + (bboxes.length : Int))

/-- The output of `_convert_object_detection_dataset` (the written
`annotations.json` contents). -/
structure SynOutput where
  images : List ImageInfo
  annotations : List CocoAnnFull
  categories : List Category
  deriving Repr, DecidableEq

/-- The pure tail of `_convert_object_detection_dataset` once the
image→annotation map is built: image records get ids `indx + 1`; each image's
annotations restart `image_box_tracker` at 1; categories are built with
`enumerate(labels)`, i.e. 0-based ids. -/
def synOutputOfImap (meta : SynMeta)
    (imap : List (SynImage × List (Int × List SynBox))) : SynOutput :=
  { images := imap.enum.map (fun p =>
      { file_name := p.2.1.image_num ++ "-" ++ p.2.1.view_num ++ ".jpeg",
        height := (meta.image_size.1 : Int), width := (meta.image_size.2 : Int),
        id := (p.1 : Int) + 1 }),
    annotations := (imap.enum.map (fun p =>
      synAnnsGroup ((p.1 : Int) + 1) p.2.2 1)).flatten,
    categories := meta.labels.enum.map (fun p =>
      { name := p.2, supercategory := "none", id := (p.1 : Int) }) }

/-- The `image_annotation_map` building loop of
`_convert_object_detection_dataset` (any missing label file aborts the whole
conversion with `FileNotFoundError`). -/
def buildImageAnnMap (meta : SynMeta) :
    List SynImage → Except String (List (SynImage × List (Int × List SynBox)))
  | [] => .ok []
  | img :: rest =>
    match convert_text_files_to_object_annotations meta img.files with
    | .error e => .error e
    | .ok a =>
      match buildImageAnnMap meta rest with
      | .error e => .error e
      | .ok restMap => .ok ((img, a) :: restMap)

/-- Model of `_convert_object_detection_dataset`, composed from the map building and
the pure output generation. -/
def convert_object_detection_dataset (meta : SynMeta)
    (jpeg_images : List SynImage) : Except String SynOutput :=
  match buildImageAnnMap meta jpeg_images with
  | .error e => .error e
  | .ok imap => .ok (synOutputOfImap meta imap)

/-! ### Filesystem effect model for `HeliosDataFormatConverter.convert`
(transactional rollback, claim about cleanup of a failed conversion). -/

/-- The filesystem state the conversion touches at the dataset path:
the original per-subject directories, the new `images/` directory
(`none` = absent) with its file names, and the `annotations.json` flag. -/
structure SynFS where
  subjectDirs : List String
  imagesDir : Option (List String)
  annotationsJson : Bool
  deriving Repr, DecidableEq

/-- A state-changing step of `_convert_object_detection_dataset`:
`os.makedirs('images', exist_ok=True)`, one `shutil.copyfile` into `images/`,
or the final `json.dump` to `annotations.json`.  All other statements only
read the filesystem. -/
inductive SynStep where
  | mkImagesDir : SynStep
  | copyImage : String → SynStep
  | writeJson : SynStep
  deriving Repr, DecidableEq

/-- Effect of one step on the filesystem. -/
def applySynStep (fs : SynFS) : SynStep → SynFS
  | .mkImagesDir =>
    { fs with imagesDir := some (fs.imagesDir.getD []) }
  | .copyImage name =>
    { fs with imagesDir := some ((fs.imagesDir.getD []) ++ [name]) }
  | .writeJson => { fs with annotationsJson := true }

def applySynSteps (fs : SynFS) (steps : List SynStep) : SynFS :=
  steps.foldl applySynStep fs

/-- The write steps of a conversion run, in source order: create `images/`,
copy every image into it, write `annotations.json`. -/
def conversionSteps (imageNames : List String) : List SynStep :=
  SynStep.mkImagesDir :: imageNames.map SynStep.copyImage
    ++ [SynStep.writeJson]

/-- Model of `_cleanup_failed_object_detection_conversion`: remove `annotations.json`
and the `images/` tree when they exist. -/
def cleanup_failed_object_detection_conversion (fs : SynFS) : SynFS :=
  { fs with annotationsJson := false, imagesDir := none }

/-- Model of `_remove_existing_image_dirs`: delete every directory at the dataset path
whose name ends in a digit (the original per-subject directories). -/
def remove_existing_image_dirs (fs : SynFS) : SynFS :=
  { fs with subjectDirs :=
      fs.subjectDirs.filter (fun d => ¬ (d.toList.getLastD ' ').isDigit) }

/-- Model of `HeliosDataFormatConverter.convert` at the filesystem level.
`failAfter = some k` injects an exception after the first `k` write steps
(covering failures in steps 3–5 of the protocol; `k = 0` is a failure before
any write); the handler runs the cleanup and re-raises (`raised = true`).
On success the original per-subject directories are removed. -/
def convertFS (fs : SynFS) (imageNames : List String)
    (failAfter : Option Nat) : SynFS × Bool :=
  match failAfter with
  | some k =>
    (cleanup_failed_object_detection_conversion
      (applySynSteps fs ((conversionSteps imageNames).take k)), true)
  | none =>
    (remove_existing_image_dirs (applySynSteps fs (conversionSteps imageNames)),
     false)

/-! ### Mask extractors (`create_sub_mask_annotation`,
`create_sub_mask_annotation_per_bbox`) -/

/-- A polygon as a list of `(x, y)` coordinates (a `shapely` coordinate
ring; `find_contours` output rings are closed, first point = last point). -/
abbrev Poly := List (ℚ × ℚ)

/-- The in-place contour rewrite: flip `(row, col)` to `(x, y)` and subtract
the 1-pixel padding. -/
def flipContour (c : Poly) : Poly := c.map (fun rc => (rc.2 - 1, rc.1 - 1))

/-- Shoelace cross-term sum over consecutive coordinate pairs. -/
def crossSum : Poly → ℚ
  | [] => 0
  | [_] => 0
  | a :: b :: rest => (a.1 * b.2 - b.1 * a.2) + crossSum (b :: rest)

/-- The `shapely` polygon area: half the absolute cyclic shoelace sum (the ring is
closed implicitly; appending the head is a no-op for an already-closed ring). -/
def polyArea (p : Poly) : ℚ := |crossSum (p ++ [p.headD (0, 0)])| / 2

/-- Componentwise bounds `(min x, min y, max x, max y)` of a polygon
(`(0,0,0,0)` for the empty polygon, whose bounds the claims never use). -/
def polyBounds : Poly → ℚ × ℚ × ℚ × ℚ
  | [] => (0, 0, 0, 0)
  | q :: rest =>
    rest.foldl (fun b r =>
      (min b.1 r.1, min b.2.1 r.2, max b.2.2.1 r.1, max b.2.2.2 r.2))
      (q.1, q.2, q.1, q.2)

/-- Union of two bounds rectangles. -/
def boundsUnion (a b : ℚ × ℚ × ℚ × ℚ) : ℚ × ℚ × ℚ × ℚ :=
  (min a.1 b.1, min a.2.1 b.2.1, max a.2.2.1 b.2.2.1, max a.2.2.2 b.2.2.2)

/-- Model of `MultiPolygon(polygons).bounds`: the union of the components' bounds. -/
def multiBounds : List Poly → ℚ × ℚ × ℚ × ℚ
  | [] => (0, 0, 0, 0)
  | [p] => polyBounds p
  | p :: rest => boundsUnion (polyBounds p) (multiBounds rest)

/-- Model of `MultiPolygon(polygons).area`: the sum of the component areas. -/
def multiArea (ps : List Poly) : ℚ := (ps.map polyArea).sum

/-- Model of `np.array(poly.exterior.coords).ravel().tolist()`. -/
def polyRavel (p : Poly) : List ℚ := p.flatMap (fun q => [q.1, q.2])

/-- A mask-pipeline annotation record (float-valued bbox and area). -/
structure MaskAnn where
  segmentation : List (List ℚ)
  iscrowd : Int
  image_id : Int
  category_id : Int
  id : Int
  bbox : ℚ × ℚ × ℚ × ℚ
  area : ℚ
  deriving Repr, DecidableEq

/-- Model of `create_sub_mask_annotation(sub_mask, …)`, with the external calls made
explicit: `contours` is the `measure.find_contours(sub_mask, 0.5, 'low')`
result in `(row, col)` coordinates and `simplify` is
`poly.simplify(1.0, preserve_topology=False)`.  All contour polygons of the
sub-mask are combined into one `MultiPolygon`; a single record is returned,
with the union bounding box and combined area. -/
def create_sub_mask_annotation (simplify : Poly → Poly) (contours : List Poly)
    (image_id : Int) (category_id : Int) (annotation_id : Int)
    ( is_crowd : Int) : MaskAnn :=
  let polygons := contours.map (fun c => simplify (flipContour c))
  let segmentations := polygons.map polyRavel
  let b := multiBounds polygons
  { segmentation := segmentations, iscrowd := is_crowd, image_id := image_id,
    category_id := category_id, id := annotation_id,
    bbox := (b.1, b.2.1, b.2.2.1 - b.1, b.2.2.2 - b.2.1),
    area := multiArea polygons }

/-- Model of `create_sub_mask_annotation_per_bbox(sub_mask, …)`: one record per traced
contour, with id `annotation_id + idx` (idx the enumerate index over all
contours), skipping contours whose simplified polygon area is not `> 0`. -/
def create_sub_mask_annotation_per_bbox (simplify : Poly → Poly)
    (contours : List Poly) (image_id : Int) (category_id : Int)
    (annotation_id : Int) ( is_crowd : Int) : List MaskAnn :=
  contours.enum.filterMap (fun p =>
    let poly := simplify (flipContour p.2)
    if polyArea poly > 0 then
      let b := polyBounds poly
      some { segmentation := [polyRavel poly], iscrowd := is_crowd,
             image_id := image_id, category_id := category_id,
             id := annotation_id + (p.1 : Int),
             bbox := (b.1, b.2.1, b.2.2.1 - b.1, b.2.2.2 - b.2.1),
             area := polyArea poly }
    else none)

/-! ### Helper notions for the theorems -/

theorem pyInt_intCast (n : Int) : pyInt (n : ℚ) = n := by
  simp [pyInt]

theorem pyInt_intCast_mul_one (n : Int) : pyInt ((n : ℚ) * 1) = n := by
  rw [mul_one]
  exact pyInt_intCast n

/-- The list `[start, start + 1, …, start + n - 1]`. -/
def intRange (start : Int) : Nat → List Int
  | 0 => []
  | n + 1 => start :: intRange (start + 1) n

theorem intRange_length (start : Int) : ∀ n, (intRange start n).length = n := by
  intro n
  induction n generalizing start with
  | zero => rfl
  | succ n ih => simp [intRange, ih]

theorem intRange_append (s : Int) :
    ∀ (m : Nat) (n : Nat), intRange s m ++ intRange (s + (m : Int)) n =
      intRange s (m + n) := by
  intro m
  induction m generalizing s with
  | zero => intro n; simp [intRange]
  | succ m ih =>
    intro n
    have h2 : m + 1 + n = (m + n) + 1 := by omega
    rw [h2]
    simp only [intRange, List.cons_append, List.cons.injEq]
    refine ⟨trivial, ?_⟩
    have h1 : s + ((m + 1 : Nat) : Int) = (s + 1) + (m : Int) := by
      push_cast; ring
    rw [h1]
    exact ih (s + 1) n

/-- The 0-based indices of the boxes of one image whose extraction succeeds:
with the default options these are exactly the ids the line-record assembler
emits for that image (so the id sequence restarts for every image). -/
def successIdx (label2id : LabelMap) (resize : ℚ) :
    List AnnoBox → Nat → List Int
  | [], _ => []
  | b :: rest, k =>
    match get_coco_annotation_from_annoline b label2id resize with
    | .ok _ => (k : Int) :: successIdx label2id resize rest (k + 1)
    | .error _ => successIdx label2id resize rest (k + 1)

/-- Total number of boxes over the per-label groups of one synthetic image. -/
def totalBoxes (groups : List (Int × List SynBox)) : Nat :=
  (groups.map (fun g => g.2.length)).sum

/-! ### Id-counter lemmas -/

theorem processXmlObjects_ids (label2id : LabelMap)
    (name_converter : List (String × String)) :
    ∀ (objs : List XmlObject) (img_info : Option ImageInfo) (bnd bnd' : Int)
      (anns : List CocoAnnFull),
    processXmlObjects label2id name_converter img_info bnd objs =
      .ok (anns, bnd') →
    anns.map (fun a => a.id) = intRange bnd anns.length ∧
      bnd' = bnd + anns.length := by
  intro objs
  induction objs with
  | nil =>
    intro info bnd bnd' anns h
    simp only [processXmlObjects, Except.ok.injEq, Prod.mk.injEq] at h
    obtain ⟨h1, h2⟩ := h
    subst h1; subst h2
    simp [intRange]
  | cons obj rest ih =>
    intro info bnd bnd' anns h
    rw [processXmlObjects] at h
    cases hr : get_coco_annotation_from_obj obj label2id name_converter with
    | error e => rw [hr] at h; simp at h
    | ok r =>
      rw [hr] at h
      cases r with
      | found ann =>
        cases info with
        | none => simp at h
        | some i =>
          cases hrec : processXmlObjects label2id name_converter (some i)
              (bnd + 1) rest with
          | error e => rw [hrec] at h; simp at h
          | ok p =>
            rw [hrec] at h
            simp only [Except.ok.injEq, Prod.mk.injEq] at h
            obtain ⟨h1, h2⟩ := h
            obtain ⟨ih1, ih2⟩ := ih (some i) (bnd + 1) p.2 p.1 (by
              rw [hrec])
            subst h1; subst h2
            constructor
            · simp only [List.map_cons, List.length_cons, intRange]
              rw [ih1]
              rfl
            · rw [ih2]
              simp only [List.length_cons]
              push_cast
              ring
      | listEmpty => exact ih info bnd bnd' anns h
      | noneRes => exact ih info bnd bnd' anns h

theorem convertXmlGo_ids (env : Env) (label2id : LabelMap)
    (name_converter : List (String × String)) (img_paths : List String)
    (sameLen : Bool) (xnum : Bool) :
    ∀ (items : List (String × XmlRoot)) (idx : Nat) (bnd : Int)
      (imgs : List (Option ImageInfo)) (anns : List CocoAnnFull),
    convertXmlGo env label2id name_converter img_paths sameLen xnum items idx
      bnd = .ok (imgs, anns) →
    anns.map (fun a => a.id) = intRange bnd anns.length := by
  intro items
  induction items with
  | nil =>
    intro idx bnd imgs anns h
    simp only [convertXmlGo, Except.ok.injEq, Prod.mk.injEq] at h
    obtain ⟨_, h2⟩ := h
    subst h2
    simp [intRange]
  | cons item rest ih =>
    intro idx bnd imgs anns h
    obtain ⟨a_path, ann_root⟩ := item
    rw [convertXmlGo] at h
    cases hu : (if xnum then extractDigitsNum ((a_path.splitOn "/").getLastD "")
        else Except.ok ((idx : Int) + 1)) with
    | error e => rw [hu] at h; simp at h
    | ok uid =>
      rw [hu] at h
      dsimp only at h
      cases hroot : (if sameLen then
          match ann_root.filenameText with
          | none => Except.error (ε := String)
              "AttributeError: no filename element"
          | some _ =>
            match img_paths.get? idx with
            | some p => Except.ok { ann_root with filenameText := some p }
            | none => Except.error "IndexError: img_paths"
        else Except.ok ann_root) with
      | error e => rw [hroot] at h; simp at h
      | ok ann_root' =>
        rw [hroot] at h
        dsimp only at h
        cases hobj : processXmlObjects label2id name_converter
            ((get_image_info env ann_root' uid 1 false).map Prod.fst) bnd
            ann_root'.objects with
        | error e => rw [hobj] at h; simp at h
        | ok p =>
          obtain ⟨panns, pbnd⟩ := p
          rw [hobj] at h
          dsimp only at h
          cases hinfo : (get_image_info env ann_root' uid 1 false).map
              Prod.fst with
          | none => rw [hinfo] at h; simp at h
          | some i =>
            rw [hinfo] at h
            dsimp only at h
            cases hrec : convertXmlGo env label2id name_converter img_paths
                sameLen xnum rest (idx + 1) pbnd with
            | error e => rw [hrec] at h; simp at h
            | ok q =>
              obtain ⟨qimgs, qanns⟩ := q
              rw [hrec] at h
              simp only [Except.ok.injEq, Prod.mk.injEq] at h
              obtain ⟨h1, h2⟩ := h
              subst h2
              obtain ⟨hids, hbnd⟩ := processXmlObjects_ids label2id
                name_converter ann_root'.objects (some i) bnd pbnd panns
                (by rw [← hinfo, hobj])
              have htail := ih (idx + 1) pbnd qimgs qanns hrec
              rw [List.map_append, hids, htail, hbnd]
              rw [List.length_append]
              exact intRange_append bnd panns.length qanns.length

theorem processBoxes_default_ids (label2id : LabelMap) (resize : ℚ)
    (path : List String) (img_idx : Nat) (img_info : ImageInfo) :
    ∀ (boxes : List AnnoBox) (k : Nat) (anns : List CocoAnnFull),
    processBoxes label2id none false resize path img_idx img_info boxes k =
      .ok anns →
    anns.map (fun a => a.id) = successIdx label2id resize boxes k := by
  intro boxes
  induction boxes with
  | nil =>
    intro k anns h
    simp only [processBoxes, Except.ok.injEq] at h
    subst h
    rfl
  | cons b rest ih =>
    intro k anns h
    rw [processBoxes] at h
    simp only [Bool.false_eq_true, if_false] at h
    cases he : get_coco_annotation_from_annoline b label2id resize with
    | error e =>
      rw [he] at h
      dsimp only at h
      cases hrec : processBoxes label2id none false resize path img_idx
          img_info rest (k + 1) with
      | error e2 => rw [hrec] at h; simp at h
      | ok restAnns =>
        rw [hrec] at h
        simp only [Except.ok.injEq] at h
        subst h
        rw [successIdx, he]
        simpa using ih (k + 1) restAnns hrec
    | ok ann =>
      rw [he] at h
      dsimp only at h
      cases hrec : processBoxes label2id none false resize path img_idx
          img_info rest (k + 1) with
      | error e2 => rw [hrec] at h; simp at h
      | ok restAnns =>
        rw [hrec] at h
        simp only [Except.ok.injEq] at h
        subst h
        rw [successIdx, he]
        simpa [annWithIds] using ih (k + 1) restAnns hrec

theorem processBoxes_default_ok (label2id : LabelMap) (resize : ℚ)
    (path : List String) (img_idx : Nat) (img_info : ImageInfo) :
    ∀ (boxes : List AnnoBox) (k : Nat), ∃ anns,
    processBoxes label2id none false resize path img_idx img_info boxes k =
      .ok anns := by
  intro boxes
  induction boxes with
  | nil => intro k; exact ⟨[], rfl⟩
  | cons b rest ih =>
    intro k
    obtain ⟨restAnns, hrec⟩ := ih (k + 1)
    rw [processBoxes]
    simp only [Bool.false_eq_true, if_false]
    cases he : get_coco_annotation_from_annoline b label2id resize with
    | error e =>
      dsimp only
      rw [hrec]
      exact ⟨restAnns, rfl⟩
    | ok ann =>
      dsimp only
      rw [hrec]
      exact ⟨_, rfl⟩

theorem synBoxLoop_ids (image_id : Int) (label : Int) :
    ∀ (bs : List SynBox) (t : Int),
    (synBoxLoop image_id label bs t).map (fun a => a.id) =
      intRange t bs.length := by
  intro bs
  induction bs with
  | nil => intro t; rfl
  | cons b rest ih => intro t; simp [synBoxLoop, intRange, ih]

theorem synAnnsGroup_ids (image_id : Int) :
    ∀ (groups : List (Int × List SynBox)) (t : Int),
    (synAnnsGroup image_id groups t).map (fun a => a.id) =
      intRange t (totalBoxes groups) := by
  intro groups
  induction groups with
  | nil => intro t; rfl
  | cons g rest ih =>
    intro t
    obtain ⟨lab, bs⟩ := g
    have htot : totalBoxes ((lab, bs) :: rest) = bs.length + totalBoxes rest :=
      by simp [totalBoxes]
    rw [htot]
    simp only [synAnnsGroup, List.map_append, synBoxLoop_ids, ih]
    exact intRange_append t bs.length (totalBoxes rest)

/-! ### Claim theorems -/

deriving instance DecidableEq for Except

set_option maxRecDepth 1000000

/-- C8: for every valid box tuple with `x2 > x1` and `y2 > y1` after resize
scaling, the line-record extractor's record satisfies
`width = x2 - x1 + 1`, `height = y2 - y1 + 1` (inclusive convention),
`area = width * height`, and `category_id` taken from the fifth token; the
record `["img.jpg", "1", "10", "10", "50", "50", "2"]` yields
`bbox = [10, 10, 41, 41]`, `category_id = 2`, `area = 1681`. -/
theorem C8_line_extractor :
    (∀ (b : AnnoBox) (c : Int) (label2id : LabelMap) (resize : ℚ),
      b.label = some c →
      pyInt (b.x1 * resize) < pyInt (b.x2 * resize) →
      pyInt (b.y1 * resize) < pyInt (b.y2 * resize) →
      get_coco_annotation_from_annoline b label2id resize =
        .ok { area := (pyInt (b.x2 * resize) - pyInt (b.x1 * resize) + 1) *
                      (pyInt (b.y2 * resize) - pyInt (b.y1 * resize) + 1),
              iscrowd := 0,
              bbox := [pyInt (b.x1 * resize), pyInt (b.y1 * resize),
                       pyInt (b.x2 * resize) - pyInt (b.x1 * resize) + 1,
                       pyInt (b.y2 * resize) - pyInt (b.y1 * resize) + 1],
              category_id := c, ignore := 0, segmentation := [] }) ∧
    get_coco_annotation_from_annoline ⟨10, 10, 50, 50, some 2⟩
        [("bg", 1), ("weed", 2)] 1 =
      .ok { area := 1681, iscrowd := 0, bbox := [10, 10, 41, 41],
            category_id := 2, ignore := 0, segmentation := [] } := by
  constructor
  · intro b c label2id resize hl h1 h2
    rw [get_coco_annotation_from_annoline, hl]
    dsimp only
    rw [if_pos ⟨h1, h2⟩]
  · with_unfolding_all decide

/-- C8 witness: the general part of `C8_line_extractor` applied to the
record `[10, 10, 50, 50, 2]` at `resize = 1`. -/
theorem C8_line_extractor_witness :
    (⟨10, 10, 50, 50, some 2⟩ : AnnoBox).label = some 2 ∧
    pyInt ((10 : ℚ) * 1) < pyInt ((50 : ℚ) * 1) ∧
    get_coco_annotation_from_annoline ⟨10, 10, 50, 50, some 2⟩
        [("bg", 1), ("weed", 2)] 1 =
      .ok { area := (pyInt ((50 : ℚ) * 1) - pyInt ((10 : ℚ) * 1) + 1) *
                    (pyInt ((50 : ℚ) * 1) - pyInt ((10 : ℚ) * 1) + 1),
            iscrowd := 0,
            bbox := [pyInt ((10 : ℚ) * 1), pyInt ((10 : ℚ) * 1),
                     pyInt ((50 : ℚ) * 1) - pyInt ((10 : ℚ) * 1) + 1,
                     pyInt ((50 : ℚ) * 1) - pyInt ((10 : ℚ) * 1) + 1],
            category_id := 2, ignore := 0, segmentation := [] } :=
  ⟨rfl, by with_unfolding_all decide,
    C8_line_extractor.1 ⟨10, 10, 50, 50, some 2⟩ 2 [("bg", 1), ("weed", 2)] 1
      rfl (by with_unfolding_all decide) (by with_unfolding_all decide)⟩

/-- C2 counterexample: the XML object with box `(10, 10, 50, 50)` and label
"leaf" in the registry yields `bbox = [9, 9, 41, 41]`, not the claimed
`[9, 9, 40, 40]`. -/
theorem C2_counterexample :
    get_coco_annotation_from_obj
        ⟨none, some "leaf", some ⟨10, 10, 50, 50⟩, none⟩ [("leaf", 1)] [] =
      .ok (.found { area := 1681, iscrowd := 0, bbox := [9, 9, 41, 41],
                    category_id := 1, ignore := 0, segmentation := [] }) ∧
    ([9, 9, 41, 41] : List Int) ≠ [9, 9, 40, 40] := by
  with_unfolding_all decide

/-- C2 (amended): for an XML object with integer coordinates satisfying
`xmax ≥ xmin` and `ymax ≥ ymin` and a resolvable label, the extractor emits
`bbox = [xmin - 1, ymin - 1, xmax - xmin + 1, ymax - ymin + 1]`: the corner
is inset-corrected but the width/height convention is the inclusive
`xmax - xmin + 1`, the same as the line-record extractor's (only the corner
treatment differs between the two).  In particular `(10, 10, 50, 50)` yields
`bbox = [9, 9, 41, 41]`. -/
theorem C2_amended :
    (∀ (nm : String) (label2id : LabelMap)
      (name_converter : List (String × String)) (cid x1 y1 x2 y2 : Int)
      (bb2 : Option BndBox),
      name_converter.lookup nm = none →
      label2id.lookup nm = some cid →
      x1 ≤ x2 → y1 ≤ y2 →
      get_coco_annotation_from_obj
          ⟨none, some nm, some ⟨(x1 : ℚ), (y1 : ℚ), (x2 : ℚ), (y2 : ℚ)⟩, bb2⟩
          label2id name_converter =
        .ok (.found { area := (x2 - x1 + 1) * (y2 - y1 + 1), iscrowd := 0,
                      bbox := [x1 - 1, y1 - 1, x2 - x1 + 1, y2 - y1 + 1],
                      category_id := cid, ignore := 0,
                      segmentation := [] })) ∧
    (∀ (x1 y1 x2 y2 c : Int) (label2id : LabelMap),
      x1 < x2 → y1 < y2 →
      get_coco_annotation_from_annoline
          ⟨(x1 : ℚ), (y1 : ℚ), (x2 : ℚ), (y2 : ℚ), some c⟩ label2id 1 =
        .ok { area := (x2 - x1 + 1) * (y2 - y1 + 1), iscrowd := 0,
              bbox := [x1, y1, x2 - x1 + 1, y2 - y1 + 1],
              category_id := c, ignore := 0, segmentation := [] }) := by
  constructor
  · intro nm label2id name_converter cid x1 y1 x2 y2 bb2 hconv hmap hx hy
    rw [get_coco_annotation_from_obj]
    dsimp only
    rw [hconv]
    dsimp only
    rw [hmap]
    dsimp only
    rw [xmlBoxAnn]
    dsimp only
    rw [pyInt_intCast, pyInt_intCast, pyInt_intCast, pyInt_intCast]
    rw [if_pos ⟨by omega, by omega⟩]
    have e1 : x2 - (x1 - 1) = x2 - x1 + 1 := by ring
    have e2 : y2 - (y1 - 1) = y2 - y1 + 1 := by ring
    rw [e1, e2]
  · intro x1 y1 x2 y2 c label2id hx hy
    rw [get_coco_annotation_from_annoline]
    dsimp only
    rw [pyInt_intCast_mul_one, pyInt_intCast_mul_one, pyInt_intCast_mul_one,
      pyInt_intCast_mul_one]
    rw [if_pos ⟨hx, hy⟩]

/-- C2 witness: `C2_amended` applied to the scenario's box `(10, 10, 50, 50)`
with label "leaf" (XML path) and to the same integer box in the line-record
path. -/
theorem C2_amended_witness :
    ([] : List (String × String)).lookup "leaf" = none ∧
    ([("leaf", 1)] : LabelMap).lookup "leaf" = some 1 ∧
    (10 : Int) ≤ 50 ∧
    get_coco_annotation_from_obj
        ⟨none, some "leaf",
          some ⟨((10 : Int) : ℚ), ((10 : Int) : ℚ), ((50 : Int) : ℚ),
            ((50 : Int) : ℚ)⟩, none⟩ [("leaf", 1)] [] =
      .ok (.found { area := (50 - 10 + 1) * (50 - 10 + 1), iscrowd := 0,
                    bbox := [10 - 1, 10 - 1, 50 - 10 + 1, 50 - 10 + 1],
                    category_id := 1, ignore := 0, segmentation := [] }) ∧
    get_coco_annotation_from_annoline
        ⟨((10 : Int) : ℚ), ((10 : Int) : ℚ), ((50 : Int) : ℚ),
          ((50 : Int) : ℚ), some 2⟩ [("leaf", 1)] 1 =
      .ok { area := (50 - 10 + 1) * (50 - 10 + 1), iscrowd := 0,
            bbox := [10, 10, 50 - 10 + 1, 50 - 10 + 1],
            category_id := 2, ignore := 0, segmentation := [] } :=
  ⟨rfl, rfl, by omega,
    C2_amended.1 "leaf" [("leaf", 1)] [] 1 10 10 50 50 none rfl rfl
      (by omega) (by omega),
    C2_amended.2 10 10 50 50 2 [("leaf", 1)] (by omega) (by omega)⟩

/-- C6 counterexample: an XML object whose sub-label "stem" is absent from
the label map raises a lookup error (`KeyError`) instead of being silently
skipped. -/
theorem C6_counterexample :
    get_coco_annotation_from_obj ⟨some "stem", none, some ⟨1, 1, 5, 5⟩, none⟩
        [("leaf", 1)] [] = .error "KeyError: subname not in label2id" := by
  with_unfolding_all decide

/-- C6 (amended): only an object without a sub-label whose (optionally
remapped) primary label is absent from the label map is silently skipped
(the extractor returns the empty result).  When a sub-label is present but
absent from the label map, the lookup raises instead of skipping. -/
theorem C6_amended :
    (∀ (obj : XmlObject) (label2id : LabelMap)
      (name_converter : List (String × String)) (nm : String),
      obj.subname = none → obj.name = some nm →
      label2id.lookup
          (match name_converter.lookup nm with
            | some remapped => remapped
            | none => nm) = none →
      get_coco_annotation_from_obj obj label2id name_converter =
        .ok .listEmpty) ∧
    (∀ (obj : XmlObject) (label2id : LabelMap)
      (name_converter : List (String × String)) (s : String),
      obj.subname = some s → label2id.lookup s = none →
      get_coco_annotation_from_obj obj label2id name_converter =
        .error "KeyError: subname not in label2id") := by
  constructor
  · intro obj label2id name_converter nm hsub hname hmap
    rw [get_coco_annotation_from_obj, hsub, hname]
    dsimp only
    rw [hmap]
  · intro obj label2id name_converter s hsub hmap
    rw [get_coco_annotation_from_obj, hsub]
    dsimp only
    rw [hmap]

/-- C6 witness: `C6_amended` applied to an object with unknown primary label
"weed" (skipped) and to an object with unknown sub-label "stem" (raises). -/
theorem C6_amended_witness :
    (⟨none, some "weed", some ⟨1, 1, 5, 5⟩, none⟩ : XmlObject).subname =
      none ∧
    get_coco_annotation_from_obj ⟨none, some "weed", some ⟨1, 1, 5, 5⟩, none⟩
        [("leaf", 1)] [] = .ok .listEmpty ∧
    get_coco_annotation_from_obj ⟨some "stem", none, some ⟨1, 1, 5, 5⟩, none⟩
        [("leaf", 1)] [] = .error "KeyError: subname not in label2id" :=
  ⟨rfl,
    C6_amended.1 ⟨none, some "weed", some ⟨1, 1, 5, 5⟩, none⟩ [("leaf", 1)]
      [] "weed" rfl rfl rfl,
    C6_amended.2 ⟨some "stem", none, some ⟨1, 1, 5, 5⟩, none⟩ [("leaf", 1)]
      [] "stem" rfl rfl⟩

/-- C10 counterexample: an XML object with neither a `bndbox` nor a `bbox`
child can still raise: when its sub-label is present but absent from the
label map, the lookup error fires before the missing-box check. -/
theorem C10_counterexample :
    get_coco_annotation_from_obj ⟨some "stem", none, none, none⟩
        [("leaf", 1)] [] = .error "KeyError: subname not in label2id" := by
  with_unfolding_all decide

/-- C10 (amended): for every XML object with neither a `bndbox` nor a `bbox`
child whose label resolution does not itself raise (no sub-label, or a
sub-label present in the map), the extractor returns no annotation
(`None`/`[]`) instead of raising, and the XML assembler silently skips such
an object and continues with the rest. -/
theorem C10_amended :
    (∀ (obj : XmlObject) (label2id : LabelMap)
      (name_converter : List (String × String)),
      obj.bndbox = none → obj.bbox = none →
      (obj.subname = none ∨
        (∃ s cid, obj.subname = some s ∧ label2id.lookup s = some cid)) →
      (get_coco_annotation_from_obj obj label2id name_converter =
          .ok .noneRes ∨
        get_coco_annotation_from_obj obj label2id name_converter =
          .ok .listEmpty)) ∧
    (∀ (label2id : LabelMap) (name_converter : List (String × String))
      (img_info : Option ImageInfo) (bnd : Int) (obj : XmlObject)
      (rest : List XmlObject),
      (get_coco_annotation_from_obj obj label2id name_converter =
          .ok .noneRes ∨
        get_coco_annotation_from_obj obj label2id name_converter =
          .ok .listEmpty) →
      processXmlObjects label2id name_converter img_info bnd (obj :: rest) =
        processXmlObjects label2id name_converter img_info bnd rest) := by
  constructor
  · intro obj label2id name_converter hb1 hb2 hsub
    have hbox : ∀ cid, xmlBoxAnn obj cid = .ok .noneRes := by
      intro cid
      rw [xmlBoxAnn, hb1, hb2]
    cases hsub with
    | inl hnone =>
      rw [get_coco_annotation_from_obj, hnone]
      cases hname : obj.name with
      | none => right; rfl
      | some nm =>
        dsimp only
        cases hmap : label2id.lookup
            (match name_converter.lookup nm with
              | some remapped => remapped
              | none => nm) with
        | none => right; rfl
        | some cid => left; exact hbox cid
    | inr hsome =>
      obtain ⟨s, cid, hs, hlook⟩ := hsome
      rw [get_coco_annotation_from_obj, hs]
      dsimp only
      rw [hlook]
      left
      exact hbox cid
  · intro label2id name_converter img_info bnd obj rest hskip
    cases hskip with
    | inl h => rw [processXmlObjects, h]
    | inr h => rw [processXmlObjects, h]

/-- C10 witness: `C10_amended` applied to a boxless object with mapped label
"leaf": the extractor yields `None` and `processXmlObjects` skips it. -/
theorem C10_amended_witness :
    (⟨none, some "leaf", none, none⟩ : XmlObject).bndbox = none ∧
    (get_coco_annotation_from_obj ⟨none, some "leaf", none, none⟩
          [("leaf", 1)] [] = .ok .noneRes ∨
      get_coco_annotation_from_obj ⟨none, some "leaf", none, none⟩
          [("leaf", 1)] [] = .ok .listEmpty) ∧
    processXmlObjects [("leaf", 1)] [] none 5
        [⟨none, some "leaf", none, none⟩] =
      processXmlObjects [("leaf", 1)] [] none 5 [] :=
  ⟨rfl,
    C10_amended.1 ⟨none, some "leaf", none, none⟩ [("leaf", 1)] [] rfl rfl
      (Or.inl rfl),
    C10_amended.2 [("leaf", 1)] [] none 5 ⟨none, some "leaf", none, none⟩ []
      (C10_amended.1 ⟨none, some "leaf", none, none⟩ [("leaf", 1)] [] rfl rfl
        (Or.inl rfl))⟩

/-- C4 counterexample: a line-record job containing a degenerate box
(`xmax = xmin`) completes without propagating any error — the geometry error
is caught internally (`except: ann = None`) and the box is dropped; and the
XML extractor does not raise on `xmax = xmin` (the check runs after the
1-pixel corner inset, so it only fires for `xmax < xmin`). -/
theorem C4_counterexample :
    (convert_bbox_to_coco (fun _ => some (100, 200))
        [⟨["a", "img1.jpg"], [⟨10, 10, 10, 50, some 1⟩]⟩] [("w", 1)] "i"
        none none false 1 false false).map
        (fun o => (o.images.length, o.annotations)) = .ok (1, []) ∧
    get_coco_annotation_from_obj
        ⟨none, some "leaf", some ⟨10, 10, 10, 50⟩, none⟩ [("leaf", 3)] [] =
      .ok (.found { area := 41, iscrowd := 0, bbox := [9, 9, 1, 41],
                    category_id := 3, ignore := 0, segmentation := [] }) := by
  with_unfolding_all decide

/-- C4 (amended): the line-record extractor raises a box-geometry error
exactly on degenerate scaled coordinates, but `convert_bbox_to_coco` catches
it internally (the box loop never propagates an error under the default
options, dropping the offending box).  The XML extractor raises only when
`xmax < xmin` or `ymax < ymin` in the original coordinates (the inset shifts
the check by one), and that error does propagate out of the XML assembler. -/
theorem C4_amended :
    (∀ (b : AnnoBox) (c : Int) (label2id : LabelMap) (resize : ℚ),
      b.label = some c →
      (pyInt (b.x2 * resize) ≤ pyInt (b.x1 * resize) ∨
        pyInt (b.y2 * resize) ≤ pyInt (b.y1 * resize)) →
      get_coco_annotation_from_annoline b label2id resize =
        .error "Box size error") ∧
    (∀ (label2id : LabelMap) (resize : ℚ) (path : List String)
      (img_idx : Nat) (img_info : ImageInfo) (boxes : List AnnoBox) (k : Nat),
      ∃ anns, processBoxes label2id none false resize path img_idx img_info
        boxes k = .ok anns) ∧
    (∀ (s : String) (label2id : LabelMap)
      (name_converter : List (String × String)) (cid x1 y1 x2 y2 : Int)
      (bb2 : Option BndBox),
      label2id.lookup s = some cid →
      ((x2 < x1 ∨ y2 < y1) →
        get_coco_annotation_from_obj
            ⟨some s, none, some ⟨(x1 : ℚ), (y1 : ℚ), (x2 : ℚ), (y2 : ℚ)⟩,
              bb2⟩ label2id name_converter = .error "Box size error") ∧
      (x1 ≤ x2 → y1 ≤ y2 →
        ∃ a, get_coco_annotation_from_obj
            ⟨some s, none, some ⟨(x1 : ℚ), (y1 : ℚ), (x2 : ℚ), (y2 : ℚ)⟩,
              bb2⟩ label2id name_converter = .ok (.found a))) ∧
    (∀ (env : Env) (general_info : String) (a_path : String) (root : XmlRoot)
      (obj : XmlObject) (rest : List XmlObject) (label2id : LabelMap)
      (name_converter : List (String × String)) (e : String),
      root.objects = obj :: rest →
      get_coco_annotation_from_obj obj label2id name_converter = .error e →
      convert_xmls_to_cocojson env general_info [(a_path, root)] [] label2id
        name_converter false = .error e) := by
  refine ⟨?_, ?_, ?_, ?_⟩
  · intro b c label2id resize hl hdeg
    rw [get_coco_annotation_from_annoline, hl]
    dsimp only
    rw [if_neg]
    intro hc
    rcases hdeg with h | h
    · exact absurd hc.1 (by omega)
    · exact absurd hc.2 (by omega)
  · intro label2id resize path img_idx img_info boxes k
    exact processBoxes_default_ok label2id resize path img_idx img_info
      boxes k
  · intro s label2id name_converter cid x1 y1 x2 y2 bb2 hlook
    have hbase : get_coco_annotation_from_obj
        ⟨some s, none, some ⟨(x1 : ℚ), (y1 : ℚ), (x2 : ℚ), (y2 : ℚ)⟩, bb2⟩
          label2id name_converter =
        xmlBoxAnn ⟨some s, none,
          some ⟨(x1 : ℚ), (y1 : ℚ), (x2 : ℚ), (y2 : ℚ)⟩, bb2⟩ cid := by
      rw [get_coco_annotation_from_obj]
      dsimp only
      rw [hlook]
    constructor
    · intro hdeg
      rw [hbase, xmlBoxAnn]
      dsimp only
      rw [pyInt_intCast, pyInt_intCast, pyInt_intCast, pyInt_intCast]
      rw [if_neg]
      intro hc
      rcases hdeg with h | h
      · exact absurd hc.1 (by omega)
      · exact absurd hc.2 (by omega)
    · intro hx hy
      rw [hbase, xmlBoxAnn]
      dsimp only
      rw [pyInt_intCast, pyInt_intCast, pyInt_intCast, pyInt_intCast]
      rw [if_pos ⟨by omega, by omega⟩]
      exact ⟨_, rfl⟩
  · intro env general_info a_path root obj rest label2id name_converter e
      hobjs herr
    have hgo : convertXmlGo env label2id name_converter [] false false
        [(a_path, root)] 0 1 = .error e := by
      rw [convertXmlGo]
      simp only [Bool.false_eq_true, if_false]
      rw [hobjs, processXmlObjects, herr]
    have hwrap : convert_xmls_to_cocojson env general_info [(a_path, root)]
        [] label2id name_converter false =
        (match convertXmlGo env label2id name_converter [] false false
            [(a_path, root)] 0 1 with
          | Except.error e2 => Except.error e2
          | Except.ok (imgs, anns) =>
            Except.ok ⟨imgs, anns, categoriesOf label2id, general_info⟩) :=
      rfl
    rw [hwrap, hgo]

/-- C4 witness: `C4_amended` applied at concrete inputs: a degenerate line
box raises in the extractor but the box loop swallows it; the XML extractor
raises for `xmax < xmin` and this propagates out of a one-file XML job. -/
theorem C4_amended_witness :
    (⟨10, 10, 10, 50, some 1⟩ : AnnoBox).label = some 1 ∧
    get_coco_annotation_from_annoline ⟨10, 10, 10, 50, some 1⟩ [("w", 1)] 1 =
      .error "Box size error" ∧
    (∃ anns, processBoxes [("w", 1)] none false 1 ["a", "img1.jpg"] 0
      ⟨"img1.jpg", 100, 200, 1⟩ [⟨10, 10, 10, 50, some 1⟩] 0 = .ok anns) ∧
    get_coco_annotation_from_obj
        ⟨some "leaf", none,
          some ⟨((10 : Int) : ℚ), ((10 : Int) : ℚ), ((5 : Int) : ℚ),
            ((50 : Int) : ℚ)⟩, none⟩ [("leaf", 3)] [] =
      .error "Box size error" ∧
    convert_xmls_to_cocojson (fun _ => some (4, 4)) "i"
        [("a/1.xml", ⟨some "img.jpg", [⟨some "stem", none, none, none⟩]⟩)]
        [] [("leaf", 1)] [] false =
      .error "KeyError: subname not in label2id" :=
  ⟨rfl,
    C4_amended.1 ⟨10, 10, 10, 50, some 1⟩ 1 [("w", 1)] 1 rfl
      (Or.inl (by with_unfolding_all decide)),
    C4_amended.2.1 [("w", 1)] 1 ["a", "img1.jpg"] 0 ⟨"img1.jpg", 100, 200, 1⟩
      [⟨10, 10, 10, 50, some 1⟩] 0,
    (C4_amended.2.2.1 "leaf" [("leaf", 3)] [] 3 10 10 5 50 none rfl).1
      (Or.inl (by omega)),
    C4_amended.2.2.2 (fun _ => some (4, 4)) "i" "a/1.xml"
      ⟨some "img.jpg", [⟨some "stem", none, none, none⟩]⟩
      ⟨some "stem", none, none, none⟩ [] [("leaf", 1)] []
      "KeyError: subname not in label2id" rfl
      (by with_unfolding_all decide)⟩

/-- C3 counterexample: an XML job whose single image cannot be loaded does
not exclude the image and continue — it aborts the whole job (the source
appends the `None` image info and then subscripts it, a `TypeError`). -/
theorem C3_counterexample :
    convert_xmls_to_cocojson (fun _ => none) "info"
        [("a/1.xml", ⟨some "img.jpg", []⟩)] [] [("leaf", 1)] [] false =
      .error "TypeError: NoneType image info" := by
  with_unfolding_all decide

/-- C3 (amended): both image-info resolvers return `(None, None)` instead of
raising when the image cannot be loaded, and the line-record assembler
excludes the failed image (and all its annotations) and continues with the
remaining images; but the XML assembler does not tolerate the failure — a
single-file XML job whose image cannot be loaded aborts with an error. -/
theorem C3_amended :
    (∀ (env : Env) (anno_line : AnnoLine) (idx : Int) (resize : ℚ)
      (add_foldername : Bool),
      env (joinPath anno_line.path) = none →
      get_image_info_from_annoline env anno_line idx resize add_foldername =
        none) ∧
    (∀ (env : Env) (root : XmlRoot) (idx : Int) (resize : ℚ)
      (add_foldername : Bool) (f : String),
      root.filenameText = some f → env f = none →
      get_image_info env root idx resize add_foldername = none) ∧
    (∀ (env : Env) (label2id : LabelMap)
      (bnd_id_list : Option (List (List Int))) (folder : Bool) (resize : ℚ)
      (add_foldername : Bool) (anno_line : AnnoLine) (rest : List AnnoLine)
      (img_idx : Nat),
      env (joinPath anno_line.path) = none →
      convertBboxGo env label2id none bnd_id_list folder resize
          add_foldername false (anno_line :: rest) img_idx =
        convertBboxGo env label2id none bnd_id_list folder resize
          add_foldername false rest (img_idx + 1)) ∧
    (∀ (env : Env) (general_info : String) (a_path : String) (root : XmlRoot)
      (f : String) (label2id : LabelMap)
      (name_converter : List (String × String)),
      root.filenameText = some f → env f = none →
      ∃ e, convert_xmls_to_cocojson env general_info [(a_path, root)] []
        label2id name_converter false = .error e) := by
  refine ⟨?_, ?_, ?_, ?_⟩
  · intro env anno_line idx resize add_foldername h
    rw [get_image_info_from_annoline]
    dsimp only
    rw [h]
  · intro env root idx resize add_foldername f hf h
    rw [get_image_info, hf]
    dsimp only
    rw [h]
  · intro env label2id bnd_id_list folder resize add_foldername anno_line
      rest img_idx h
    have hresolve : get_image_info_from_annoline env anno_line
        ((img_idx : Int) + 1) resize add_foldername = none := by
      rw [get_image_info_from_annoline]
      dsimp only
      rw [h]
    rw [convertBboxGo]
    simp only [Bool.false_eq_true, if_false]
    rw [hresolve]
    cases hrec : convertBboxGo env label2id none bnd_id_list folder resize
        add_foldername false rest (img_idx + 1) with
    | error e => rfl
    | ok p =>
      obtain ⟨ri, ra⟩ := p
      simp
  · intro env general_info a_path root f label2id name_converter hf h
    have hresolve : get_image_info env root (((0 : Nat) : Int) + 1) 1 false =
        none := by
      rw [get_image_info, hf]
      dsimp only
      rw [h]
    have hwrap : convert_xmls_to_cocojson env general_info [(a_path, root)]
        [] label2id name_converter false =
        (match convertXmlGo env label2id name_converter [] false false
            [(a_path, root)] 0 1 with
          | Except.error e2 => Except.error e2
          | Except.ok (imgs, anns) =>
            Except.ok ⟨imgs, anns, categoriesOf label2id, general_info⟩) :=
      rfl
    rw [hwrap]
    have hgo : ∃ e, convertXmlGo env label2id name_converter [] false false
        [(a_path, root)] 0 1 = .error e := by
      rw [convertXmlGo]
      simp only [Bool.false_eq_true, if_false]
      rw [hresolve]
      simp only [Option.map_none']
      cases hobj : processXmlObjects label2id name_converter none 1
          root.objects with
      | error e => exact ⟨e, rfl⟩
      | ok p =>
        obtain ⟨anns, bnd'⟩ := p
        exact ⟨"TypeError: NoneType image info", rfl⟩
    obtain ⟨e, hgoe⟩ := hgo
    rw [hgoe]
    exact ⟨e, rfl⟩

/-- C3 witness: `C3_amended` applied with an environment that fails to load
every image: the resolvers return `None`, a two-image line job reduces to
the one-image job on the remaining image, and a one-file XML job errors. -/
theorem C3_amendedWitness :
    ((fun _ => none : Env) (joinPath ["a", "i1.jpg"]) = none) ∧
    get_image_info_from_annoline (fun _ => none)
      ⟨["a", "i1.jpg"], []⟩ 1 1 false = none ∧
    get_image_info (fun _ => none) ⟨some "img.jpg", []⟩ 1 1 false = none ∧
    convertBboxGo (fun _ => none) [("w", 1)] none none false 1 false false
        [⟨["a", "i1.jpg"], []⟩, ⟨["b", "i2.jpg"], []⟩] 0 =
      convertBboxGo (fun _ => none) [("w", 1)] none none false 1 false false
        [⟨["b", "i2.jpg"], []⟩] 1 ∧
    (∃ e, convert_xmls_to_cocojson (fun _ => none) "info"
      [("a/1.xml", ⟨some "img.jpg", []⟩)] [] [("leaf", 1)] [] false =
        .error e) :=
  ⟨rfl,
    C3_amended.1 (fun _ => none) ⟨["a", "i1.jpg"], []⟩ 1 1 false rfl,
    C3_amended.2.1 (fun _ => none) ⟨some "img.jpg", []⟩ 1 1 false "img.jpg"
      rfl rfl,
    C3_amended.2.2.1 (fun _ => none) [("w", 1)] none false 1 false
      ⟨["a", "i1.jpg"], []⟩ [⟨["b", "i2.jpg"], []⟩] 0 rfl,
    C3_amended.2.2.2 (fun _ => none) "info" "a/1.xml" ⟨some "img.jpg", []⟩
      "img.jpg" [("leaf", 1)] [] rfl rfl⟩

/-- C1 counterexample: a two-image line-record job (one valid box each)
emits annotation ids `[0, 0]` — the per-image counter restarts, ids are not
globally unique and not increasing; the synthetic converter likewise emits
`[1, 1]` for two one-box images. -/
theorem C1_counterexample :
    ((convert_bbox_to_coco (fun _ => some (100, 200))
        [⟨["a", "i1.jpg"], [⟨10, 10, 50, 50, some 2⟩]⟩,
         ⟨["a", "i2.jpg"], [⟨1, 1, 5, 5, some 1⟩]⟩]
        [("bg", 1), ("weed", 2)] "info" none none false 1 false false).map
        (fun o => o.annotations.map (fun a => a.id)) = .ok [0, 0] ∧
      ¬ ([0, 0] : List Int).Nodup) ∧
    ((convert_object_detection_dataset ⟨"p", "n", (100, 100), ["leaf"], "d"⟩
        [⟨"image0", "view0",
          fun s => if s = "leaf" then
            some [((1 : ℚ)/2, (1 : ℚ)/2, (1 : ℚ)/5, (1 : ℚ)/5)] else none⟩,
         ⟨"image1", "view0",
          fun s => if s = "leaf" then
            some [((1 : ℚ)/4, (1 : ℚ)/4, (1 : ℚ)/5, (1 : ℚ)/5)] else none⟩]).map
        (fun o => o.annotations.map (fun a => a.id)) = .ok [1, 1] ∧
      ¬ ([1, 1] : List Int).Nodup) := by
  with_unfolding_all decide

/-- C1 (amended): only the XML assembler maintains a single job-wide
monotonically increasing annotation-id counter (every successful XML job
emits ids exactly `1, 2, …, n` in append order).  The line-record assembler
(without an explicit `bnd_id_list`; its `bnd_idx + 1` statement has no
effect) assigns each annotation the 0-based index of its box within its own
image, and the synthetic reorganizer restarts a 1-based counter for every
image — in both, the counter is reset per image, so ids are not globally
unique once two images contribute boxes. -/
theorem C1_amended :
    (∀ (env : Env) (general_info : String) (items : List (String × XmlRoot))
      (img_paths : List String) (label2id : LabelMap)
      (name_converter : List (String × String))
      (extract_num_from_imgid : Bool) (out : XmlOutput),
      convert_xmls_to_cocojson env general_info items img_paths label2id
        name_converter extract_num_from_imgid = .ok out →
      out.annotations.map (fun a => a.id) =
        intRange 1 out.annotations.length) ∧
    (∀ (label2id : LabelMap) (resize : ℚ) (path : List String)
      (img_idx : Nat) (img_info : ImageInfo) (boxes : List AnnoBox)
      (anns : List CocoAnnFull),
      processBoxes label2id none false resize path img_idx img_info boxes 0 =
        .ok anns →
      anns.map (fun a => a.id) = successIdx label2id resize boxes 0) ∧
    (∀ (meta : SynMeta) (imap : List (SynImage × List (Int × List SynBox))),
      (synOutputOfImap meta imap).annotations.map (fun a => a.id) =
        (imap.map (fun p => intRange 1 (totalBoxes p.2))).flatten) := by
  refine ⟨?_, ?_, ?_⟩
  · intro env general_info items img_paths label2id name_converter xn out h
    rw [convert_xmls_to_cocojson] at h
    cases hgo : convertXmlGo env label2id name_converter img_paths
        (img_paths.length == items.length) xn items 0 1 with
    | error e => rw [hgo] at h; simp at h
    | ok p =>
      obtain ⟨imgs, anns⟩ := p
      rw [hgo] at h
      simp only [Except.ok.injEq] at h
      subst h
      exact convertXmlGo_ids env label2id name_converter img_paths
        (img_paths.length == items.length) xn items 0 1 imgs anns hgo
  · intro label2id resize path img_idx img_info boxes anns h
    exact processBoxes_default_ids label2id resize path img_idx img_info
      boxes 0 anns h
  · intro meta imap
    rw [synOutputOfImap]
    dsimp only
    rw [List.map_flatten, List.map_map]
    rw [show ((List.map fun a : CocoAnnFull => a.id) ∘
        fun p : Nat × (SynImage × List (Int × List SynBox)) =>
          synAnnsGroup ((p.1 : Int) + 1) p.2.2 1) =
        (fun p : Nat × (SynImage × List (Int × List SynBox)) =>
          intRange 1 (totalBoxes p.2.2))
      from funext fun p => synAnnsGroup_ids ((p.1 : Int) + 1) p.2.2 1]
    rw [show (fun p : Nat × (SynImage × List (Int × List SynBox)) =>
        intRange 1 (totalBoxes p.2.2)) =
        (fun p : SynImage × List (Int × List SynBox) =>
          intRange 1 (totalBoxes p.2)) ∘ Prod.snd from rfl]
    rw [← List.map_map, List.enum_map_snd]

/-- C1 witness: `C1_amended` applied to a one-file/two-object XML job (ids
`1, 2`), to a one-image box list (ids from the image-local index), and to a
concrete synthetic image map. -/
theorem C1_amended_witness :
    convert_xmls_to_cocojson (fun _ => some (4, 4)) "i"
        [("a/1.xml", ⟨some "i.jpg",
          [⟨none, some "leaf", some ⟨1, 1, 3, 3⟩, none⟩,
           ⟨none, some "leaf", some ⟨1, 1, 2, 2⟩, none⟩]⟩)]
        [] [("leaf", 1)] [] false =
      .ok ⟨[some ⟨"i.jpg", 4, 4, 1⟩],
        [⟨9, 0, [0, 0, 3, 3], 1, 0, [], 1, 1⟩,
         ⟨4, 0, [0, 0, 2, 2], 1, 0, [], 1, 2⟩],
        [⟨"none", 1, "leaf"⟩], "i"⟩ ∧
    ([⟨9, 0, [0, 0, 3, 3], 1, 0, [], 1, 1⟩,
      ⟨4, 0, [0, 0, 2, 2], 1, 0, [], 1, 2⟩] : List CocoAnnFull).map
      (fun a => a.id) =
      intRange 1 ([⟨9, 0, [0, 0, 3, 3], 1, 0, [], 1, 1⟩,
        ⟨4, 0, [0, 0, 2, 2], 1, 0, [], 1, 2⟩] : List CocoAnnFull).length ∧
    processBoxes [("w", 1)] none false 1 ["a", "b.jpg"] 0 ⟨"b.jpg", 1, 1, 7⟩
        [⟨10, 10, 50, 50, some 2⟩] 0 =
      .ok [⟨1681, 0, [10, 10, 41, 41], 2, 0, [], 7, 0⟩] ∧
    ([⟨1681, 0, [10, 10, 41, 41], 2, 0, [], 7, 0⟩] : List CocoAnnFull).map
      (fun a => a.id) = successIdx [("w", 1)] 1 [⟨10, 10, 50, 50, some 2⟩] 0 ∧
    (synOutputOfImap ⟨"p", "n", (100, 100), ["leaf"], "d"⟩
        [(⟨"image0", "view0", fun _ => none⟩, [(1, [⟨40, 40, 20, 20⟩])])]
      ).annotations.map (fun a => a.id) =
      ([(⟨"image0", "view0", fun _ => none⟩,
          [(1, [⟨40, 40, 20, 20⟩])])].map
        (fun p : SynImage × List (Int × List SynBox) =>
          intRange 1 (totalBoxes p.2))).flatten :=
  have hxml : convert_xmls_to_cocojson (fun _ => some (4, 4)) "i"
      [("a/1.xml", ⟨some "i.jpg",
        [⟨none, some "leaf", some ⟨1, 1, 3, 3⟩, none⟩,
         ⟨none, some "leaf", some ⟨1, 1, 2, 2⟩, none⟩]⟩)]
      [] [("leaf", 1)] [] false =
      .ok ⟨[some ⟨"i.jpg", 4, 4, 1⟩],
        [⟨9, 0, [0, 0, 3, 3], 1, 0, [], 1, 1⟩,
         ⟨4, 0, [0, 0, 2, 2], 1, 0, [], 1, 2⟩],
        [⟨"none", 1, "leaf"⟩], "i"⟩ := by with_unfolding_all decide
  have hbox : processBoxes [("w", 1)] none false 1 ["a", "b.jpg"] 0
      ⟨"b.jpg", 1, 1, 7⟩ [⟨10, 10, 50, 50, some 2⟩] 0 =
      .ok [⟨1681, 0, [10, 10, 41, 41], 2, 0, [], 7, 0⟩] := by
    with_unfolding_all decide
  ⟨hxml,
    C1_amended.1 (fun _ => some (4, 4)) "i"
      [("a/1.xml", ⟨some "i.jpg",
        [⟨none, some "leaf", some ⟨1, 1, 3, 3⟩, none⟩,
         ⟨none, some "leaf", some ⟨1, 1, 2, 2⟩, none⟩]⟩)]
      [] [("leaf", 1)] [] false
      ⟨[some ⟨"i.jpg", 4, 4, 1⟩],
        [⟨9, 0, [0, 0, 3, 3], 1, 0, [], 1, 1⟩,
         ⟨4, 0, [0, 0, 2, 2], 1, 0, [], 1, 2⟩],
        [⟨"none", 1, "leaf"⟩], "i"⟩ hxml,
    hbox,
    C1_amended.2.1 [("w", 1)] 1 ["a", "b.jpg"] 0 ⟨"b.jpg", 1, 1, 7⟩
      [⟨10, 10, 50, 50, some 2⟩]
      [⟨1681, 0, [10, 10, 41, 41], 2, 0, [], 7, 0⟩] hbox,
    C1_amended.2.2 ⟨"p", "n", (100, 100), ["leaf"], "d"⟩
      [(⟨"image0", "view0", fun _ => none⟩, [(1, [⟨40, 40, 20, 20⟩])])]⟩

/-- C5: the claim holds for the line-record and XML assemblers (1-based
registry ids), but the synthetic converter emits categories with 0-based ids
(`enumerate(labels)`), while its own annotations carry the 1-based label
ids, so the annotations reference a category id that does not occur in the
emitted category list — an internal inconsistency of the code, against both
the spec and the converter's own annotation side. -/
theorem C5_code_bug :
    categoriesOf (get_label2id ["leaf", "stem"]) =
      [⟨"none", 1, "leaf"⟩, ⟨"none", 2, "stem"⟩] ∧
    (convert_object_detection_dataset ⟨"p", "n", (100, 100), ["leaf"], "d"⟩
        [⟨"image0", "view0",
          fun s => if s = "leaf" then
            some [((1 : ℚ)/2, (1 : ℚ)/2, (1 : ℚ)/5, (1 : ℚ)/5)] else none⟩]).map
        (fun o => (o.categories, o.annotations.map (fun a => a.category_id)))
      = .ok ([⟨"none", 0, "leaf"⟩], [1]) ∧
    ¬ (1 : Int) ∈ ([⟨"none", 0, "leaf"⟩] : List Category).map
        (fun c => c.id) := by
  with_unfolding_all decide

/-! ### C7: filesystem lemmas -/

theorem applySynStep_subjectDirs (fs : SynFS) (s : SynStep) :
    (applySynStep fs s).subjectDirs = fs.subjectDirs := by
  cases s <;> rfl

theorem applySynSteps_subjectDirs :
    ∀ (steps : List SynStep) (fs : SynFS),
    (applySynSteps fs steps).subjectDirs = fs.subjectDirs := by
  intro steps
  induction steps with
  | nil => intro fs; rfl
  | cons s rest ih =>
    intro fs
    rw [show applySynSteps fs (s :: rest) =
        applySynSteps (applySynStep fs s) rest from rfl]
    rw [ih (applySynStep fs s), applySynStep_subjectDirs]

/-- C7: if the synthetic reorganizer's conversion fails after any prefix of
its write steps, then after the call (which re-raises) neither
`annotations.json` nor the new `images/` directory exists and the original
per-subject directories are untouched; only a fully successful conversion
removes the original (digit-suffixed) per-subject directories, and then the
output `annotations.json` exists. -/
theorem C7_transactional_rollback :
    ∀ (fs : SynFS) (imageNames : List String) (k : Nat),
    ((convertFS fs imageNames (some k)).1.annotationsJson = false ∧
     (convertFS fs imageNames (some k)).1.imagesDir = none ∧
     (convertFS fs imageNames (some k)).1.subjectDirs = fs.subjectDirs ∧
     (convertFS fs imageNames (some k)).2 = true) ∧
    ((convertFS fs imageNames none).2 = false ∧
     (convertFS fs imageNames none).1.subjectDirs =
       fs.subjectDirs.filter (fun d => ¬ (d.toList.getLastD ' ').isDigit) ∧
     (convertFS fs imageNames none).1.annotationsJson = true) := by
  intro fs imageNames k
  refine ⟨⟨rfl, rfl, ?_, rfl⟩, rfl, ?_, ?_⟩
  · show (cleanup_failed_object_detection_conversion
        (applySynSteps fs ((conversionSteps imageNames).take k))).subjectDirs
      = fs.subjectDirs
    rw [show (cleanup_failed_object_detection_conversion
        (applySynSteps fs ((conversionSteps imageNames).take k))).subjectDirs
      = (applySynSteps fs
          ((conversionSteps imageNames).take k)).subjectDirs from rfl]
    exact applySynSteps_subjectDirs _ fs
  · show (remove_existing_image_dirs
        (applySynSteps fs (conversionSteps imageNames))).subjectDirs =
      fs.subjectDirs.filter (fun d => ¬ (d.toList.getLastD ' ').isDigit)
    rw [show (remove_existing_image_dirs
        (applySynSteps fs (conversionSteps imageNames))).subjectDirs =
      (applySynSteps fs (conversionSteps imageNames)).subjectDirs.filter
        (fun d => ¬ (d.toList.getLastD ' ').isDigit) from rfl]
    rw [applySynSteps_subjectDirs]
  · show (remove_existing_image_dirs
        (applySynSteps fs (conversionSteps imageNames))).annotationsJson =
      true
    rw [show (remove_existing_image_dirs
        (applySynSteps fs (conversionSteps imageNames))).annotationsJson =
      (applySynSteps fs (conversionSteps imageNames)).annotationsJson
      from rfl]
    rw [show conversionSteps imageNames =
        (SynStep.mkImagesDir :: imageNames.map SynStep.copyImage) ++
          [SynStep.writeJson] from rfl]
    rw [show applySynSteps fs
        ((SynStep.mkImagesDir :: imageNames.map SynStep.copyImage) ++
          [SynStep.writeJson]) =
      applySynStep (applySynSteps fs
        (SynStep.mkImagesDir :: imageNames.map SynStep.copyImage))
        SynStep.writeJson from List.foldl_append ..]
    rfl

/-- C9: for any sub-mask traced into two contour islands whose simplified
polygons both have positive area (two disjoint same-colored regions), the
per-instance extractor yields exactly two records with ids `aid, aid + 1`,
while the whole-mask extractor yields a single record whose bbox is derived
from the union of the two polygons' bounds and whose area is the combined
polygon area. -/
theorem C9_mask_variants :
    ∀ (simplify : Poly → Poly) (c1 c2 : Poly) (iid cid aid ic : Int),
    0 < polyArea (simplify (flipContour c1)) →
    0 < polyArea (simplify (flipContour c2)) →
    (create_sub_mask_annotation_per_bbox simplify [c1, c2] iid cid aid
        ic).length = 2 ∧
    (create_sub_mask_annotation_per_bbox simplify [c1, c2] iid cid aid
        ic).map (fun a => a.id) = [aid, aid + 1] ∧
    ( create_sub_mask_annotation simplify [c1, c2] iid cid aid ic).bbox =
      ((boundsUnion (polyBounds (simplify (flipContour c1)))
          (polyBounds (simplify (flipContour c2)))).1,
       (boundsUnion (polyBounds (simplify (flipContour c1)))
          (polyBounds (simplify (flipContour c2)))).2.1,
       (boundsUnion (polyBounds (simplify (flipContour c1)))
          (polyBounds (simplify (flipContour c2)))).2.2.1 -
         (boundsUnion (polyBounds (simplify (flipContour c1)))
            (polyBounds (simplify (flipContour c2)))).1,
       (boundsUnion (polyBounds (simplify (flipContour c1)))
          (polyBounds (simplify (flipContour c2)))).2.2.2 -
         (boundsUnion (polyBounds (simplify (flipContour c1)))
            (polyBounds (simplify (flipContour c2)))).2.1) ∧
    ( create_sub_mask_annotation simplify [c1, c2] iid cid aid ic).area =
      polyArea (simplify (flipContour c1)) +
        polyArea (simplify (flipContour c2)) := by
  intro simplify c1 c2 iid cid aid ic h1 h2
  have hper : create_sub_mask_annotation_per_bbox simplify [c1, c2] iid cid
      aid ic =
      [{ segmentation := [polyRavel (simplify (flipContour c1))],
         iscrowd := ic, image_id := iid, category_id := cid,
         id := aid + ((0 : Nat) : Int),
         bbox := ((polyBounds (simplify (flipContour c1))).1,
           (polyBounds (simplify (flipContour c1))).2.1,
           (polyBounds (simplify (flipContour c1))).2.2.1 -
             (polyBounds (simplify (flipContour c1))).1,
           (polyBounds (simplify (flipContour c1))).2.2.2 -
             (polyBounds (simplify (flipContour c1))).2.1),
         area := polyArea (simplify (flipContour c1)) },
       { segmentation := [polyRavel (simplify (flipContour c2))],
         iscrowd := ic, image_id := iid, category_id := cid,
         id := aid + ((1 : Nat) : Int),
         bbox := ((polyBounds (simplify (flipContour c2))).1,
           (polyBounds (simplify (flipContour c2))).2.1,
           (polyBounds (simplify (flipContour c2))).2.2.1 -
             (polyBounds (simplify (flipContour c2))).1,
           (polyBounds (simplify (flipContour c2))).2.2.2 -
             (polyBounds (simplify (flipContour c2))).2.1),
         area := polyArea (simplify (flipContour c2)) }] := by
    rw [create_sub_mask_annotation_per_bbox]
    rw [show ([c1, c2] : List Poly).enum = [(0, c1), (1, c2)] from rfl]
    rw [List.filterMap_cons, List.filterMap_cons, List.filterMap_nil]
    dsimp only
    rw [if_pos h1, if_pos h2]
  refine ⟨?_, ?_, rfl, ?_⟩
  · rw [hper]; rfl
  · rw [hper]
    simp
  · rw [show ( create_sub_mask_annotation simplify [c1, c2] iid cid aid
        ic).area = multiArea [simplify (flipContour c1),
          simplify (flipContour c2)] from rfl]
    simp [multiArea]

/-- C9 witness: `C9_mask_variants` applied with the identity simplifier to
two disjoint unit-square contours. -/
theorem C9_mask_variants_witness :
    0 < polyArea ((fun p : Poly => p)
      (flipContour [(1, 1), (1, 3), (3, 3), (3, 1), (1, 1)])) ∧
    (create_sub_mask_annotation_per_bbox (fun p : Poly => p)
        [[(1, 1), (1, 3), (3, 3), (3, 1), (1, 1)],
         [(6, 6), (6, 8), (8, 8), (8, 6), (6, 6)]] 5 2 9 0).length = 2 ∧
    (create_sub_mask_annotation_per_bbox (fun p : Poly => p)
        [[(1, 1), (1, 3), (3, 3), (3, 1), (1, 1)],
         [(6, 6), (6, 8), (8, 8), (8, 6), (6, 6)]] 5 2 9 0).map
      (fun a => a.id) = [9, 9 + 1] :=
  have hc := C9_mask_variants (fun p : Poly => p)
    [(1, 1), (1, 3), (3, 3), (3, 1), (1, 1)]
    [(6, 6), (6, 8), (8, 8), (8, 6), (6, 6)] 5 2 9 0
    (by with_unfolding_all decide) (by with_unfolding_all decide)
  ⟨by with_unfolding_all decide, hc.1, hc.2.1⟩

end AgML
